import Mathlib

/-!
Verification development for the form-data-integration dispatch engine.

The definitions below are a shallow embedding of the TypeScript sources:
pure functions become Lean functions, JavaScript objects become ordered
association lists, machine time (`Date.now()` / `new Date().toISOString()`)
becomes an explicit natural-number clock parameter, and thrown exceptions
become `Option`/sum results.  Stateful services (the dispatch queue) become
explicit state records with a step relation.
-/

namespace FDI

/-- Primitive JSON values appearing inside the flat objects that the field
transformers construct.  `ptime t` models the string
`new Date(t).toISOString()` produced at clock instant `t`: the rendering is
injective in `t`, which is the only property the development uses. -/
inductive Prim where
  | pstr (s : String)
  | pnum (n : Int)
  | pbool (b : Bool)
  | ptime (t : Nat)
deriving DecidableEq, Repr

/-- Payload values: the values stored in the flat payload map built by
`transformDataForEndpoint`.  Transformer outputs in the source are either
primitives or flat one-level objects, so `obj` carries primitive fields.
`undefined` models JavaScript `undefined` (e.g. a lookup-table miss). -/
inductive Value where
  | str (s : String)
  | num (n : Int)
  | bool (b : Bool)
  | time (t : Nat)
  | obj (fields : List (String × Prim))
  | undefined
deriving DecidableEq, Repr

/-- JavaScript falsiness for the `x || ''` idiom on payload values. -/
def Value.falsy : Value → Bool
  | .str s => s = ""
  | .num n => n = 0
  | .bool b => !b
  | .time _ => false
  | .obj _ => false
  | .undefined => true

/-- The field names of the `FormData` record (src/models/formData,
mirrored in src/types/index.ts). -/
inductive FieldName where
  | personalName | customerID | emailAddress | phoneNumber | dateOfBirth
  | currentAddress | mailingAddress | employmentStatus | incomeRange
  | creditScore | productCategory | requestDate | priorityLevel
  | preferredContactMethod | accountType | documentType | documentID
  | approvalStatus | processingNotes | consentGiven | marketingOptIn
  | lastUpdated | agentID | deviceType | ipAddress
deriving DecidableEq, Repr

/-- Rendering of a field name back to its JavaScript property-name string,
used when a customer config supplies no field remapping
(`fieldMappings?.[field] || field`). -/
def FieldName.toStr : FieldName → String
  | .personalName => "personalName"
  | .customerID => "customerID"
  | .emailAddress => "emailAddress"
  | .phoneNumber => "phoneNumber"
  | .dateOfBirth => "dateOfBirth"
  | .currentAddress => "currentAddress"
  | .mailingAddress => "mailingAddress"
  | .employmentStatus => "employmentStatus"
  | .incomeRange => "incomeRange"
  | .creditScore => "creditScore"
  | .productCategory => "productCategory"
  | .requestDate => "requestDate"
  | .priorityLevel => "priorityLevel"
  | .preferredContactMethod => "preferredContactMethod"
  | .accountType => "accountType"
  | .documentType => "documentType"
  | .documentID => "documentID"
  | .approvalStatus => "approvalStatus"
  | .processingNotes => "processingNotes"
  | .consentGiven => "consentGiven"
  | .marketingOptIn => "marketingOptIn"
  | .lastUpdated => "lastUpdated"
  | .agentID => "agentID"
  | .deviceType => "deviceType"
  | .ipAddress => "ipAddress"

/-- The `FormData` record from src/types/index.ts: every field is a string
except `creditScore : number` and the two booleans.  Immutable value. -/
structure FormData where
  personalName : String
  customerID : String
  emailAddress : String
  phoneNumber : String
  dateOfBirth : String
  currentAddress : String
  mailingAddress : String
  employmentStatus : String
  incomeRange : String
  creditScore : Int
  productCategory : String
  requestDate : String
  priorityLevel : String
  preferredContactMethod : String
  accountType : String
  documentType : String
  documentID : String
  approvalStatus : String
  processingNotes : String
  consentGiven : Bool
  marketingOptIn : Bool
  lastUpdated : String
  agentID : String
  deviceType : String
  ipAddress : String
deriving DecidableEq, Repr

/-- Reading `formData[field]` as a payload value. -/
def FormData.get (fd : FormData) : FieldName → Value
  | .personalName => .str fd.personalName
  | .customerID => .str fd.customerID
  | .emailAddress => .str fd.emailAddress
  | .phoneNumber => .str fd.phoneNumber
  | .dateOfBirth => .str fd.dateOfBirth
  | .currentAddress => .str fd.currentAddress
  | .mailingAddress => .str fd.mailingAddress
  | .employmentStatus => .str fd.employmentStatus
  | .incomeRange => .str fd.incomeRange
  | .creditScore => .num fd.creditScore
  | .productCategory => .str fd.productCategory
  | .requestDate => .str fd.requestDate
  | .priorityLevel => .str fd.priorityLevel
  | .preferredContactMethod => .str fd.preferredContactMethod
  | .accountType => .str fd.accountType
  | .documentType => .str fd.documentType
  | .documentID => .str fd.documentID
  | .approvalStatus => .str fd.approvalStatus
  | .processingNotes => .str fd.processingNotes
  | .consentGiven => .bool fd.consentGiven
  | .marketingOptIn => .bool fd.marketingOptIn
  | .lastUpdated => .str fd.lastUpdated
  | .agentID => .str fd.agentID
  | .deviceType => .str fd.deviceType
  | .ipAddress => .str fd.ipAddress

/-! ## Endpoint configuration and the Transform stage
(src/unnamed/part_000: `DataProcessor.getEndpointConfigs`,
`DataProcessor.transformDataForEndpoint`). -/

/-- An `EndpointConfig` from `DataProcessor.getEndpointConfigs`: name,
delivery path, required fields, and per-field transformation.  A field
transformer receives the raw field value and the current clock instant
(the embedding of `new Date()` for transformers that read the clock). -/
structure EndpointConfig where
  name : String
  path : String
  requiredFields : List FieldName
  fieldTransformations : FieldName → Option (Value → Nat → Value)

/-- Per-endpoint customer overrides
(`customerConfig.endpointSpecificConfig?.[endpointConfig.name]`). -/
structure EndpointSpecificConfig where
  fieldMappings : FieldName → Option String
  additionalFields : List (String × Value)

/-- A `CustomerConfig` restricted to what `transformDataForEndpoint`
reads from it. -/
structure CustomerConfig where
  customerId : String
  endpointSpecificConfig : String → Option EndpointSpecificConfig

/-- `incomeRange` transformer of `CreditCheckSystem`: the `ranges` lookup
table; a key outside the table yields JavaScript `undefined`. -/
def incomeRangeToNumber (v : Value) (_now : Nat) : Value :=
  match v with
  | .str "$0-$25k" => .num 25000
  | .str "$25k-$50k" => .num 50000
  | .str "$50k-$75k" => .num 75000
  | .str "$75k-$100k" => .num 100000
  | .str "$100k+" => .num 150000
  | _ => .undefined

/-- `employmentStatus` transformer of `CreditCheckSystem`:
`{ status: value, isEmployed: ['Employed','Self-employed'].includes(value) }`.
The TypeScript signature restricts the input to strings; a non-string input
would misbehave in JavaScript and is mapped to `undefined`. -/
def employmentStatusToObj (v : Value) (_now : Nat) : Value :=
  match v with
  | .str s => .obj [("status", .pstr s),
      ("isEmployed", .pbool (s = "Employed" || s = "Self-employed"))]
  | _ => .undefined

/-- The `CreditCheckSystem` endpoint configuration from
`DataProcessor.getEndpointConfigs`. -/
def creditCheckSystemConfig : EndpointConfig where
  name := "CreditCheckSystem"
  path := "/credit/check"
  requiredFields := [.customerID, .incomeRange, .creditScore, .employmentStatus]
  fieldTransformations := fun f =>
    match f with
    | .incomeRange => some incomeRangeToNumber
    | .employmentStatus => some employmentStatusToObj
    | _ => none

/-- `preferredContactMethod` transformer of `CommunicationPreferencesAPI`:
`{ method: value, frequency: 'Weekly', optOut: false }`. -/
def preferredContactMethodToObj (v : Value) (_now : Nat) : Value :=
  match v with
  | .str s => .obj [("method", .pstr s), ("frequency", .pstr "Weekly"),
      ("optOut", .pbool false)]
  | _ => .undefined

/-- `marketingOptIn` transformer of `CommunicationPreferencesAPI`:
`{ status: value ? 'OPTED_IN' : 'OPTED_OUT', timestamp: new Date().toISOString() }`.
The `timestamp` field reads the current clock. -/
def marketingOptInToObj (v : Value) (now : Nat) : Value :=
  match v with
  | .bool b => .obj [("status", .pstr (if b then "OPTED_IN" else "OPTED_OUT")),
      ("timestamp", .ptime now)]
  | _ => .undefined

/-- The `CommunicationPreferencesAPI` endpoint configuration from
`DataProcessor.getEndpointConfigs`. -/
def communicationPreferencesConfig : EndpointConfig where
  name := "CommunicationPreferencesAPI"
  path := "/preferences"
  requiredFields := [.customerID, .preferredContactMethod, .emailAddress,
    .phoneNumber, .marketingOptIn]
  fieldTransformations := fun f =>
    match f with
    | .preferredContactMethod => some preferredContactMethodToObj
    | .marketingOptIn => some marketingOptInToObj
    | _ => none

/-- JavaScript object property assignment `payload[k] = v` on an ordered
association list: overwrite in place when the key exists, append otherwise. -/
def objSet (p : List (String × Value)) (k : String) (v : Value) :
    List (String × Value) :=
  if p.any (fun kv => kv.1 = k) then
    p.map (fun kv => if kv.1 = k then (k, v) else kv)
  else p ++ [(k, v)]

/-- JavaScript property read `p[k]`. -/
def objGet (p : List (String × Value)) (k : String) : Option Value :=
  (p.find? (fun kv => kv.1 = k)).map (fun kv => kv.2)

/-- JavaScript `delete p[k]`. -/
def objDelete (p : List (String × Value)) (k : String) : List (String × Value) :=
  p.filter (fun kv => kv.1 ≠ k)

/-- The target property name for one field:
`endpointSpecificConfig?.fieldMappings?.[field] || field` (an empty-string
mapping is falsy and falls back to the field name). -/
def targetFieldName (esc : Option EndpointSpecificConfig) (f : FieldName) :
    String :=
  match esc with
  | none => f.toStr
  | some c =>
    match c.fieldMappings f with
    | none => f.toStr
    | some s => if s = "" then f.toStr else s

/-- `DataProcessor.transformDataForEndpoint`: for each required field read
the raw value, apply the endpoint's transformer when one exists, and store
the result under the (possibly remapped) target name; finally
`Object.assign` the customer's additional static fields. -/
def transformDataForEndpoint (fd : FormData) (ec : EndpointConfig)
    (cc : CustomerConfig) (now : Nat) : List (String × Value) :=
  let esc := cc.endpointSpecificConfig ec.name
  let base := ec.requiredFields.foldl (fun payload f =>
    let value := fd.get f
    let target := targetFieldName esc f
    let transformed := match ec.fieldTransformations f with
      | some tr => tr value now
      | none => value
    objSet payload target transformed) []
  match esc with
  | some c => c.additionalFields.foldl (fun payload kv =>
      objSet payload kv.1 kv.2) base
  | none => base

/-! ## Dispatch queue (src/src/services/queueService.ts). -/

/-- A `QueueItem` as declared in queueService.ts: submission data, target
endpoint configuration, priority and enqueue timestamp (`Date.now()`).
There is no retry-count field on a queue item. -/
structure QueueItem where
  data : FormData
  endpointConfig : EndpointConfig
  priority : Nat
  timestamp : Nat

/-- `QueueService.MAX_RETRIES` (hard-coded 3). -/
def MAX_RETRIES : Nat := 3

/-- `QueueService.RETRY_DELAY` in milliseconds (hard-coded 5000). -/
def RETRY_DELAY : Nat := 5000

/-- The delay `QueueService.processNext` schedules before the n-th
re-enqueue of a failed item: `setTimeout(..., this.RETRY_DELAY)` uses the
constant regardless of which retry it is. -/
def queueRetryDelay (_n : Nat) : Nat := RETRY_DELAY

/-- The priority-insert of `QueueService.enqueue`:
`findIndex(q => q.priority < priority)` locates the first queued item with
strictly lower priority; `splice` inserts before it, `push` appends when no
such item exists. -/
def enqueueList (item : QueueItem) : List QueueItem → List QueueItem
  | [] => [item]
  | x :: xs =>
    if x.priority < item.priority then item :: x :: xs
    else x :: enqueueList item xs

/-- Building the queue from a sequence of enqueue calls (earliest first). -/
def enqueueAll (items : List QueueItem) : List QueueItem :=
  items.foldl (fun q i => enqueueList i q) []

/-- `QueueService.getNextItem` (claimNext): `this.queue.shift()` removes
and returns the head of the sequence. -/
def getNextItem (q : List QueueItem) : Option QueueItem × List QueueItem :=
  match q with
  | [] => (none, [])
  | x :: xs => (some x, xs)

/-- Draining a queue by repeated `getNextItem` calls until it is empty:
the order in which claims return the items. -/
def drainQueue (q : List QueueItem) : List QueueItem := q

/-- The re-enqueue that `QueueService.processNext` performs after a
retryable failure: `this.enqueue(item.data, item.endpointConfig,
item.priority + 1)` — same data and endpoint configuration, priority
bumped by one, and a fresh enqueue timestamp; nothing else is passed. -/
def retryReenqueue (item : QueueItem) (ts : Nat) : QueueItem :=
  { data := item.data, endpointConfig := item.endpointConfig,
    priority := item.priority + 1, timestamp := ts }

/-- Whether `processNext` schedules a re-enqueue for a caught error:
`error instanceof ProcessingError && error.retryCount < this.MAX_RETRIES`.
The count consulted lives on the thrown error, not on the queue item. -/
def shouldRetry (errRetryCount : Nat) : Bool :=
  errRetryCount < MAX_RETRIES

/-- The deferred re-enqueue in the `catch` of `QueueService.processNext`:
when the caught error's retry count is below `MAX_RETRIES`, the timer
re-enqueues the failed item's data and endpoint config at `priority + 1`;
otherwise the failure is logged and re-thrown without re-enqueueing. -/
def reenqueueOnFailure (errRetryCount : Nat) (item : QueueItem) (ts : Nat)
    (q : List QueueItem) : List QueueItem :=
  if shouldRetry errRetryCount then enqueueList (retryReenqueue item ts) q
  else q

/-- The mutable state of a `QueueService`: the pending sequence plus the
number of in-flight processing ids.  The `processing : Set<string>` of the
source is abstracted by its size (`getProcessingCount` reads only the
size; each claim adds one id and each completion deletes it). -/
structure QState where
  queue : List QueueItem
  processing : Nat

/-- `QueueService.getProcessingCount` / `inFlightCount`. -/
def getProcessingCount (s : QState) : Nat := s.processing

/-- The claim step at the top of `QueueService.processNext`: return
without claiming when the queue is empty or the in-flight count is at the
`maxConcurrent` cap; otherwise shift the head and add a processing id. -/
def processNextClaim (mc : Nat) (s : QState) : Option (QueueItem × QState) :=
  if s.queue.length = 0 || mc ≤ s.processing then none
  else
    match s.queue with
    | [] => none
    | i :: rest => some (i, { queue := rest, processing := s.processing + 1 })

/-- Atomic transitions of the queue service, as performed by `enqueue`
(insertion), the guarded claim in `processNext`, and the `finally` block
(completion deletes the processing id). -/
inductive QStep (mc : Nat) : QState → QState → Prop where
  | enqueue (s : QState) (item : QueueItem) :
      QStep mc s { queue := enqueueList item s.queue, processing := s.processing }
  | claim (s s' : QState) (i : QueueItem)
      (h : processNextClaim mc s = some (i, s')) : QStep mc s s'
  | complete (s : QState) (h : 0 < s.processing) :
      QStep mc s { queue := s.queue, processing := s.processing - 1 }

/-- States reachable from the empty initial queue state. -/
inductive QReachable (mc : Nat) : QState → Prop where
  | init : QReachable mc { queue := [], processing := 0 }
  | step (s s' : QState) (hs : QReachable mc s) (h : QStep mc s s') :
      QReachable mc s'

/-! ## Worker pool (src/src/services/workerPool.ts). -/

/-- A worker slot: identifier and busy flag. -/
structure Worker where
  id : Nat
  busy : Bool
deriving DecidableEq, Repr

/-- `WorkerPool.getAvailableWorkers`: `workers.filter(w => !w.busy).length`. -/
def availableWorkers (ws : List Worker) : Nat :=
  (ws.filter (fun w => !w.busy)).length

/-- Outcome of running the per-item pipeline inside a worker: success or a
thrown `ProcessingError` (validation / transformation / delivery failure),
abstracted by a message. -/
inductive PipelineResult where
  | ok
  | err (msg : String)
deriving DecidableEq, Repr

/-- `WorkerPool.process`: find the first idle worker
(`workers.find(w => !w.busy)`); throw `NoAvailableWorker` when none is
idle; otherwise set its busy flag, run the pipeline, and reset the flag in
the `finally` block on every exit path.  Returns the worker list after the
call together with the outcome propagated to the caller. -/
def poolProcess (ws : List Worker) (pipeline : PipelineResult) :
    List Worker × Option PipelineResult :=
  match ws.findIdx? (fun w => !w.busy) with
  | none => (ws, none)
  | some i =>
    match ws[i]? with
    | none => (ws, none)
    | some w =>
      let claimed := ws.set i { w with busy := true }
      let released := claimed.set i { w with busy := false }
      (released, some pipeline)

/-! ## DataProcessor retry loop (src/unnamed/part_000:
`DataProcessor.processEndpoint`). -/

/-- `DataProcessor.validateEndpointData`: run the per-field validator over
every required field of the endpoint and report whether all passed.  The
individual field validators (regex / range / enumeration checks) are
abstracted by the `validator` argument; the function is deterministic in
its inputs, which is what the retry-loop claims depend on. -/
def validateEndpointData (validator : FieldName → Value → Bool)
    (fd : FormData) (ec : EndpointConfig) : Bool :=
  ec.requiredFields.all (fun f => validator f (fd.get f))

/-- Terminal outcome of `processEndpoint` for one item: either
`sendToEndpoint` succeeded, or the final error was logged (with the
`retryCount` recorded in the `ProcessingError` context) and re-thrown. -/
inductive PEOutcome where
  | success
  | terminal (loggedRetryCount : Nat)
deriving DecidableEq, Repr

/-- Observable trace of one `processEndpoint` run: its outcome, how many
times the validation ran, the `retryCount` value at each delivery attempt
(each `sendToEndpoint` call), and the exponential-backoff delays awaited
between iterations, in milliseconds and in order. -/
structure PETrace where
  outcome : PEOutcome
  validationChecks : Nat
  deliveryAttempts : List Nat
  delays : List Nat
deriving DecidableEq, Repr

/-- One unrolling of the `while (retryCount <= maxRetries)` loop of
`DataProcessor.processEndpoint`.  `validateOk` is the (loop-invariant)
result of `validateEndpointData` for this item; `deliverOk rc` tells
whether the delivery attempt made in the iteration with counter `rc`
succeeds.  An iteration validates; a validation failure throws into the
`catch`, which increments the counter, and either logs and re-throws
(counter past `maxRetries`) or awaits `2 ^ retryCount * 1000` ms and loops;
a passing validation transforms and delivers, returning on success and
entering the same `catch` on delivery failure.  `fuel` bounds the
recursion; `maxRetries + 1 - rc` iterations always suffice because the
counter grows by one per iteration. -/
def peLoop (validateOk : Bool) (deliverOk : Nat → Bool) (maxRetries : Nat) :
    Nat → Nat → PETrace
  | 0, rc => { outcome := .terminal rc
               validationChecks := 0
               deliveryAttempts := []
               delays := [] }
  | fuel + 1, rc =>
    if validateOk then
      if deliverOk rc then
        { outcome := .success
          validationChecks := 1
          deliveryAttempts := [rc]
          delays := [] }
      else
        if maxRetries < rc + 1 then
          { outcome := .terminal (rc + 1)
            validationChecks := 1
            deliveryAttempts := [rc]
            delays := [] }
        else
          let rest := peLoop validateOk deliverOk maxRetries fuel (rc + 1)
          { outcome := rest.outcome
            validationChecks := rest.validationChecks + 1
            deliveryAttempts := rc :: rest.deliveryAttempts
            delays := 2 ^ (rc + 1) * 1000 :: rest.delays }
    else
      if maxRetries < rc + 1 then
        { outcome := .terminal (rc + 1)
          validationChecks := 1
          deliveryAttempts := []
          delays := [] }
      else
        let rest := peLoop validateOk deliverOk maxRetries fuel (rc + 1)
        { outcome := rest.outcome
          validationChecks := rest.validationChecks + 1
          deliveryAttempts := rest.deliveryAttempts
          delays := 2 ^ (rc + 1) * 1000 :: rest.delays }

/-- `DataProcessor.processEndpoint` for one item: run the loop from
`retryCount = 0`. -/
def processEndpoint (validateOk : Bool) (deliverOk : Nat → Bool)
    (maxRetries : Nat) : PETrace :=
  peLoop validateOk deliverOk maxRetries (maxRetries + 1) 0

/-! ## Delivery transport (src/unnamed/part_000:
`DataProcessor.sendToEndpoint`). -/

/-- The HTTP POST that `sendToEndpoint` issues: destination, the value of
the `X-Webhook-Secret` header when one is attached, and the JSON body. -/
structure HttpRequest where
  url : Option Value
  secretHeader : Option Value
  body : List (String × Value)
deriving Repr

/-- `DataProcessor.sendToEndpoint`: for the `/webhook` path, read
`payload.webhookUrl` and `payload.secret`, `delete` both keys from the
payload, and POST the remaining body to the webhook URL with an
`X-Webhook-Secret` header of `secret || ''`; for every other path, POST
the payload unchanged to `baseUrl + path` with no secret header. -/
def sendToEndpoint (endpointPath : String) (payload : List (String × Value)) :
    HttpRequest :=
  if endpointPath = "/webhook" then
    let webhookUrl := objGet payload "webhookUrl"
    let secret := objGet payload "secret"
    let stripped := objDelete (objDelete payload "webhookUrl") "secret"
    { url := webhookUrl,
      secretHeader := some (match secret with
        | some v => if v.falsy then .str "" else v
        | none => .str ""),
      body := stripped }
  else
    { url := some (.str endpointPath), secretHeader := none, body := payload }

/-! ## Address transformer and validator
(src/src/services/transformation/fieldTransformers.ts `parseAddress`,
src/src/types/index.ts `fieldValidators.currentAddress`). -/

/-- Result of `parseAddress`: `zip` is optional because
`stateZip[1]` is JavaScript `undefined` when the third segment holds no
space. -/
structure Address where
  street : String
  city : String
  state : String
  zip : Option String
deriving DecidableEq, Repr

/-- Character-level model of JavaScript `String.prototype.split` with a
single-character separator (the only form `parseAddress` uses): empty
input splits to `[""]`, and consecutive separators produce empty
segments. -/
def jsSplitChars (sep : Char) : List Char → List (List Char)
  | [] => [[]]
  | c :: cs =>
    let rest := jsSplitChars sep cs
    if c = sep then [] :: rest
    else
      match rest with
      | [] => [[c]]
      | r :: rs => (c :: r) :: rs

/-- JavaScript `value.split(sep)` for a one-character separator. -/
def jsSplit (sep : Char) (s : String) : List String :=
  (jsSplitChars sep s.data).map fun l => { data := l }

/-- JavaScript `value.trim()`: strip whitespace from both ends. -/
def jsTrim (s : String) : String :=
  { data := ((s.data.dropWhile Char.isWhitespace).reverse.dropWhile
      Char.isWhitespace).reverse }

/-- JavaScript `value.includes(c)` for a one-character needle. -/
def jsContains (s : String) (c : Char) : Bool :=
  s.data.contains c

/-- `parseAddress`: split on commas; `parts[0].trim()` is the street,
`parts[1].trim()` the city, and the first two space-separated entries of
`parts[2].trim()` the state and zip.  Reading `parts[1]` or `parts[2]`
when fewer segments exist yields `undefined`, so the subsequent `.trim()`
throws a `TypeError`; the thrown run is `none`.  `stateZip[1]` when the
third segment holds no space is `undefined` without a throw, hence the
optional `zip`. -/
def parseAddress (address : String) : Option Address :=
  let parts := jsSplit ',' address
  match parts[1]?, parts[2]? with
  | some p1, some p2 =>
    let stateZip := jsSplit ' ' (jsTrim p2)
    some { street := jsTrim (parts.headD "")
           city := jsTrim p1
           state := stateZip.headD ""
           zip := stateZip[1]? }
  | _, _ => none

/-- The `currentAddress` entry of `fieldValidators` (the `mailingAddress`
entry is identical): the value must be non-empty after trimming and must
contain a comma. -/
def currentAddressValid (s : String) : Bool :=
  decide (0 < (jsTrim s).length) && jsContains s ','

/-! ## Queue-ordering lemmas. -/

/-- Descending-priority order between adjacent queue positions. -/
def descPrio (a b : QueueItem) : Prop := b.priority ≤ a.priority

lemma mem_enqueueList {y i : QueueItem} {q : List QueueItem} :
    y ∈ enqueueList i q ↔ y = i ∨ y ∈ q := by
  induction q with
  | nil => simp [enqueueList]
  | cons x xs ih =>
    simp only [enqueueList]
    split
    · simp [or_comm, or_assoc, or_left_comm]
    · simp [ih]
      tauto

lemma enqueueList_pairwise {i : QueueItem} {q : List QueueItem}
    (h : q.Pairwise descPrio) : (enqueueList i q).Pairwise descPrio := by
  induction q with
  | nil => simp [enqueueList]
  | cons x xs ih =>
    rw [List.pairwise_cons] at h
    obtain ⟨hx, hxs⟩ := h
    simp only [enqueueList]
    split
    · rename_i hlt
      refine List.Pairwise.cons ?_ (List.Pairwise.cons hx hxs)
      intro y hy
      rcases List.mem_cons.mp hy with rfl | hy
      · exact Nat.le_of_lt hlt
      · exact Nat.le_trans (hx y hy) (Nat.le_of_lt hlt)
    · rename_i hge
      refine List.Pairwise.cons ?_ (ih hxs)
      intro y hy
      rcases mem_enqueueList.mp hy with rfl | hy
      · exact Nat.le_of_not_lt hge
      · exact hx y hy

lemma filter_enqueueList_ne {p : Nat} {i : QueueItem} {q : List QueueItem}
    (hne : i.priority ≠ p) :
    (enqueueList i q).filter (fun a => a.priority == p)
      = q.filter (fun a => a.priority == p) := by
  induction q with
  | nil => simp [enqueueList, hne]
  | cons x xs ih =>
    simp only [enqueueList]
    split
    · simp [List.filter_cons, hne]
    · simp only [List.filter_cons]
      rw [ih]

lemma filter_enqueueList_eq {p : Nat} {i : QueueItem} {q : List QueueItem}
    (hq : q.Pairwise descPrio) (hp : i.priority = p) :
    (enqueueList i q).filter (fun a => a.priority == p)
      = q.filter (fun a => a.priority == p) ++ [i] := by
  induction q with
  | nil => simp [enqueueList, hp]
  | cons x xs ih =>
    rw [List.pairwise_cons] at hq
    obtain ⟨hx, hxs⟩ := hq
    simp only [enqueueList]
    split
    · rename_i hlt
      have hxne : x.priority ≠ p := Nat.ne_of_lt (hp ▸ hlt)
      have hxsnil : xs.filter (fun a => a.priority == p) = [] := by
        rw [List.filter_eq_nil_iff]
        intro a ha
        have : a.priority < p := Nat.lt_of_le_of_lt (hx a ha) (hp ▸ hlt)
        simpa using Nat.ne_of_lt this
      simp [List.filter_cons, hp, hxne, hxsnil]
    · simp only [List.filter_cons]
      rw [ih hxs]
      split <;> simp

lemma enqueueFold_pairwise (items : List QueueItem) :
    ∀ q : List QueueItem, q.Pairwise descPrio →
      (items.foldl (fun q i => enqueueList i q) q).Pairwise descPrio := by
  induction items with
  | nil => intro q hq; simpa using hq
  | cons i rest ih =>
    intro q hq
    simpa using ih (enqueueList i q) (enqueueList_pairwise hq)

lemma enqueueFold_filter (p : Nat) (items : List QueueItem) :
    ∀ q : List QueueItem, q.Pairwise descPrio →
      (items.foldl (fun q i => enqueueList i q) q).filter
          (fun a => a.priority == p)
        = q.filter (fun a => a.priority == p)
          ++ items.filter (fun a => a.priority == p) := by
  induction items with
  | nil => intro q _; simp
  | cons i rest ih =>
    intro q hq
    simp only [List.foldl_cons]
    rw [ih (enqueueList i q) (enqueueList_pairwise hq)]
    by_cases hp : i.priority = p
    · rw [filter_enqueueList_eq hq hp, List.filter_cons]
      simp [hp]
    · rw [filter_enqueueList_ne hp, List.filter_cons]
      simp [hp]

/-- A concrete form-data template for the worked examples. -/
def fdTemplate : FormData where
  personalName := "Jane Doe"
  customerID := "CUST0001"
  emailAddress := "a@b.com"
  phoneNumber := "555-0100"
  dateOfBirth := "1990-01-01"
  currentAddress := "1 Main St, Springfield, IL 62704"
  mailingAddress := "1 Main St, Springfield, IL 62704"
  employmentStatus := "Employed"
  incomeRange := "$50k-$75k"
  creditScore := 700
  productCategory := "Loans"
  requestDate := "2024-01-01"
  priorityLevel := "Medium"
  preferredContactMethod := "Email"
  accountType := "Personal"
  documentType := "Application"
  documentID := "DOC00001"
  approvalStatus := "Pending"
  processingNotes := "n/a"
  consentGiven := true
  marketingOptIn := true
  lastUpdated := "2024-01-02"
  agentID := "AGT001"
  deviceType := "Desktop"
  ipAddress := "10.0.0.1"

/-- A queue item for the worked examples: the customer id tags the item. -/
def taggedItem (tag : String) (prio : Nat) (ts : Nat) : QueueItem :=
  { data := { fdTemplate with customerID := tag }
    endpointConfig := creditCheckSystemConfig
    priority := prio
    timestamp := ts }

/-- Claim C1: every sequence of enqueues followed by repeated claims
returns items in descending priority order with insertion order preserved
among equal priorities — the built queue is pairwise sorted by descending
priority, each priority class of the queue equals that class of the
enqueue sequence in order, `getNextItem` removes and returns the head, and
the spec's `[3,1,3,2]` example claims back in order `[3(first), 3(second),
2, 1]`. -/
theorem C1_priority_order_fifo_ties :
    (∀ items : List QueueItem, (enqueueAll items).Pairwise descPrio)
    ∧ (∀ (items : List QueueItem) (p : Nat),
        (enqueueAll items).filter (fun a => a.priority == p)
          = items.filter (fun a => a.priority == p))
    ∧ (∀ (i : QueueItem) (q : List QueueItem), getNextItem (i :: q) = (some i, q))
    ∧ ((enqueueAll [taggedItem "A" 3 0, taggedItem "B" 1 1,
          taggedItem "C" 3 2, taggedItem "D" 2 3]).map
            (fun i => (i.data.customerID, i.priority))
        = [("A", 3), ("C", 3), ("D", 2), ("B", 1)]) := by
  refine ⟨?_, ?_, ?_, ?_⟩
  · intro items
    exact enqueueFold_pairwise items [] (List.Pairwise.nil)
  · intro items p
    simpa using enqueueFold_filter p items [] (List.Pairwise.nil)
  · intro i q
    rfl
  · rfl

/-! ## Concurrency-cap invariant. -/

lemma processNextClaim_eq_some {mc : Nat} {s s' : QState} {i : QueueItem}
    (h : processNextClaim mc s = some (i, s')) :
    s.processing < mc ∧ s'.processing = s.processing + 1 := by
  unfold processNextClaim at h
  split at h
  · exact absurd h (by simp)
  · rename_i hguard
    rw [Bool.or_eq_true, decide_eq_true_iff, decide_eq_true_iff] at hguard
    push_neg at hguard
    split at h
    · exact absurd h (by simp)
    · rename_i i' rest heq
      refine ⟨hguard.2, ?_⟩
      injection h with hpair
      have h2 := congrArg Prod.snd hpair
      simp at h2
      rw [← h2]

/-- Claim C5: in every state reachable by enqueue, claim and completion
steps from the empty initial state, the in-flight count reported by
`getProcessingCount` is at most `maxConcurrent`; moreover `processNext`
never claims an item while the in-flight count is at the cap. -/
theorem C5_inflight_at_most_maxConcurrent :
    (∀ (mc : Nat) (s : QState), QReachable mc s → getProcessingCount s ≤ mc)
    ∧ (∀ (mc : Nat) (s : QState), mc ≤ s.processing →
        processNextClaim mc s = none) := by
  constructor
  · intro mc s hr
    induction hr with
    | init => simp [getProcessingCount]
    | step s s' hs hstep ih =>
      cases hstep with
      | enqueue item => simpa [getProcessingCount] using ih
      | claim s2 i hps =>
        obtain ⟨hlt, heq⟩ := processNextClaim_eq_some hps
        simp only [getProcessingCount] at *
        omega
      | complete h0 =>
        simp only [getProcessingCount] at *
        omega
  · intro mc s h
    unfold processNextClaim
    have : (decide (s.queue.length = 0) || decide (mc ≤ s.processing)) = true := by
      simp [h]
    simp only [this, if_true]

/-- Witness for C5: a concrete reachable state of a `maxConcurrent = 2`
queue respects the cap, and a state already at the cap yields no claim. -/
theorem C5_witness :
    getProcessingCount { queue := [], processing := 1 } ≤ 2
    ∧ processNextClaim 2 { queue := [], processing := 2 } = none := by
  constructor
  · exact C5_inflight_at_most_maxConcurrent.1 2 _
      (QReachable.step _ _
        (QReachable.step _ _ QReachable.init
          (QStep.enqueue _ (taggedItem "A" 1 0)))
        (QStep.claim _ _ (taggedItem "A" 1 0) rfl))
  · exact C5_inflight_at_most_maxConcurrent.2 2 _ (by decide)

/-! ## Retry-loop lemmas. -/

lemma peLoop_alwaysFailDeliver (m : Nat) :
    ∀ (f rc : Nat), f = m + 1 - rc → rc ≤ m →
      peLoop true (fun _ => false) m f rc =
        { outcome := .terminal (m + 1)
          validationChecks := m + 1 - rc
          deliveryAttempts := List.range' rc (m + 1 - rc)
          delays := (List.range' (rc + 1) (m - rc)).map (fun i => 2 ^ i * 1000) } := by
  intro f
  induction f with
  | zero => intro rc hf hrc; omega
  | succ f ih =>
    intro rc hf hrc
    simp only [peLoop, if_true, Bool.false_eq_true, if_false]
    by_cases hm : m < rc + 1
    · have hrcm : rc = m := by omega
      subst hrcm
      simp only [if_pos hm]
      have h1 : rc + 1 - rc = 1 := by omega
      have h0 : rc - rc = 0 := by omega
      simp [h1, h0]
    · simp only [if_neg hm]
      rw [ih (rc + 1) (by omega) (by omega)]
      have e1 : m + 1 - rc = (m + 1 - (rc + 1)) + 1 := by omega
      have e2 : m - rc = (m - (rc + 1)) + 1 := by omega
      dsimp only
      rw [PETrace.mk.injEq]
      refine ⟨rfl, by omega, ?_, ?_⟩
      · rw [e1, List.range'_succ]
      · rw [e2, List.range'_succ, List.map_cons]

lemma peLoop_validateFail (m : Nat) (deliver : Nat → Bool) :
    ∀ (f rc : Nat), f = m + 1 - rc → rc ≤ m →
      peLoop false deliver m f rc =
        { outcome := .terminal (m + 1)
          validationChecks := m + 1 - rc
          deliveryAttempts := []
          delays := (List.range' (rc + 1) (m - rc)).map (fun i => 2 ^ i * 1000) } := by
  intro f
  induction f with
  | zero => intro rc hf hrc; omega
  | succ f ih =>
    intro rc hf hrc
    simp only [peLoop, Bool.false_eq_true, if_false]
    by_cases hm : m < rc + 1
    · have hrcm : rc = m := by omega
      subst hrcm
      have h1 : rc + 1 - rc = 1 := by omega
      have h0 : rc - rc = 0 := by omega
      simp [hm, h1, h0]
    · simp only [if_neg hm]
      rw [ih (rc + 1) (by omega) (by omega)]
      have e1 : m + 1 - rc = (m + 1 - (rc + 1)) + 1 := by omega
      have e2 : m - rc = (m - (rc + 1)) + 1 := by omega
      dsimp only
      rw [PETrace.mk.injEq]
      refine ⟨rfl, by omega, rfl, ?_⟩
      rw [e2, List.range'_succ, List.map_cons]

/-- Claim C2: an item whose delivery always fails with a retryable error is
delivered exactly `maxRetries + 1` times, every delivery attempt happens
with a retry counter at most `maxRetries` (the attempts carry counters
`0, 1, …, maxRetries`), and the run ends as a terminal failure that is
logged and propagated rather than retried again. -/
theorem C2_retries_exhausted_bound :
    ∀ m : Nat,
      (processEndpoint true (fun _ => false) m).deliveryAttempts.length = m + 1
      ∧ (processEndpoint true (fun _ => false) m).deliveryAttempts
          = List.range' 0 (m + 1)
      ∧ ((processEndpoint true (fun _ => false) m).deliveryAttempts.all
          (fun k => decide (k ≤ m)) = true)
      ∧ (processEndpoint true (fun _ => false) m).outcome = .terminal (m + 1) := by
  intro m
  have h := peLoop_alwaysFailDeliver m (m + 1) 0 (by omega) (by omega)
  unfold processEndpoint
  rw [h]
  refine ⟨by simp, by simp, ?_, rfl⟩
  simp only [List.all_eq_true, decide_eq_true_iff]
  intro k hk
  have := List.mem_range'.mp hk
  omega

/-- Counterexample to claim C3 as stated: with `maxRetries = 3`, a
submission that always fails required-field validation is *not* aborted
immediately — the loop re-validates it four times, schedules three backoff
delays, and surfaces the terminal failure logged with retry count 4 > 0
(while indeed never attempting a delivery). -/
theorem C3_counterexample :
    (processEndpoint false (fun _ => true) 3).validationChecks = 4
    ∧ (processEndpoint false (fun _ => true) 3).validationChecks ≠ 1
    ∧ (processEndpoint false (fun _ => true) 3).delays = [2000, 4000, 8000]
    ∧ (processEndpoint false (fun _ => true) 3).outcome = .terminal 4
    ∧ (processEndpoint false (fun _ => true) 3).deliveryAttempts = [] := by
  refine ⟨by decide, by decide, by decide, by decide, by decide⟩

/-- Claim C3 as amended: a submission failing required-field validation
never triggers any delivery attempt, but the validation failure is caught
by the retry loop: the item is re-validated `maxRetries` further times
(`maxRetries + 1` checks in total) with exponential backoff between them,
and only then surfaced as a terminal failure whose logged retry count is
`maxRetries + 1`. -/
theorem C3_amended_no_delivery_but_revalidated :
    ∀ (m : Nat) (deliver : Nat → Bool),
      (processEndpoint false deliver m).deliveryAttempts = []
      ∧ (processEndpoint false deliver m).validationChecks = m + 1
      ∧ (processEndpoint false deliver m).outcome = .terminal (m + 1)
      ∧ (processEndpoint false deliver m).delays
          = (List.range' 1 m).map (fun i => 2 ^ i * 1000) := by
  intro m deliver
  have h := peLoop_validateFail m deliver (m + 1) 0 (by omega) (by omega)
  unfold processEndpoint
  rw [h]
  refine ⟨rfl, by simp, rfl, by simp⟩

/-- Counterexample to claim C4 as stated: the re-enqueue delay of
`QueueService.processNext` is the constant `RETRY_DELAY`, so no fixed base
delay makes the delays before the first and second re-attempt equal
`base * 2 ^ 1` and `base * 2 ^ 2`. -/
theorem C4_counterexample :
    ¬ ∃ base : Nat, queueRetryDelay 1 = base * 2 ^ 1
      ∧ queueRetryDelay 2 = base * 2 ^ 2 := by
  rintro ⟨b, h1, h2⟩
  simp [queueRetryDelay, RETRY_DELAY] at h1 h2
  omega

/-- Claim C4 as amended: in `DataProcessor.processEndpoint` the delay
scheduled before re-attempt `n` is `1000 * 2 ^ n` ms (base delay 1000,
doubling sequence 2000, 4000, 8000, …), while `QueueService.processNext`
schedules every deferred re-enqueue after the fixed `RETRY_DELAY` of
5000 ms regardless of the attempt number. -/
theorem C4_amended_backoff_shape :
    (∀ m : Nat, (processEndpoint true (fun _ => false) m).delays
        = (List.range' 1 m).map (fun n => 1000 * 2 ^ n))
    ∧ (∀ n : Nat, queueRetryDelay n = 5000) := by
  constructor
  · intro m
    have h := peLoop_alwaysFailDeliver m (m + 1) 0 (by omega) (by omega)
    unfold processEndpoint
    rw [h]
    simp [Nat.mul_comm]
  · intro n
    rfl

/-! ## Re-enqueue shape and worker-pool release. -/

/-- Counterexample to claim C6 as stated: two failures of the same queued
item whose errors carry retry counts 0 and 2 (both below `MAX_RETRIES`,
so both are re-enqueued) produce the *identical* new item — the enqueue
call passes only data, endpoint config and `priority + 1` — so no reading
of a retry counter off the new item can equal the failed item's count
plus one in both cases. -/
theorem C6_counterexample :
    (shouldRetry 0 = true ∧ shouldRetry 2 = true)
    ∧ ¬ ∃ rc : QueueItem → Nat,
        rc (retryReenqueue (taggedItem "A" 1 0) 100) = 0 + 1
        ∧ rc (retryReenqueue (taggedItem "A" 1 0) 100) = 2 + 1 := by
  refine ⟨⟨by decide, by decide⟩, ?_⟩
  rintro ⟨rc, h1, h2⟩
  rw [h1] at h2
  exact absurd h2 (by decide)

/-- Claim C6 as amended: when a retryable failure (error retry count below
`MAX_RETRIES`) causes a re-enqueue, the newly enqueued item wraps the same
submission data and endpoint configuration with priority incremented by 1
and a fresh timestamp, and it lands in the queue; the new item carries no
retry counter — `QueueItem` has no such field and the retry bound is
checked against the thrown error's count. -/
theorem C6_amended_reenqueue_shape :
    ∀ (r : Nat) (item : QueueItem) (ts : Nat) (q : List QueueItem),
      r < MAX_RETRIES →
      retryReenqueue item ts ∈ reenqueueOnFailure r item ts q
      ∧ (retryReenqueue item ts).data = item.data
      ∧ (retryReenqueue item ts).endpointConfig = item.endpointConfig
      ∧ (retryReenqueue item ts).priority = item.priority + 1
      ∧ (retryReenqueue item ts).timestamp = ts := by
  intro r item ts q hr
  have hs : shouldRetry r = true := by
    simp [shouldRetry, hr]
  refine ⟨?_, rfl, rfl, rfl, rfl⟩
  unfold reenqueueOnFailure
  rw [hs]
  simp only [if_true]
  exact mem_enqueueList.mpr (Or.inl rfl)

/-- Witness for C6's amended theorem at error retry count 0. -/
theorem C6_amended_witness :
    0 < MAX_RETRIES
    ∧ (retryReenqueue (taggedItem "A" 1 0) 7
        ∈ reenqueueOnFailure 0 (taggedItem "A" 1 0) 7 []
      ∧ (retryReenqueue (taggedItem "A" 1 0) 7).data = (taggedItem "A" 1 0).data
      ∧ (retryReenqueue (taggedItem "A" 1 0) 7).endpointConfig
          = (taggedItem "A" 1 0).endpointConfig
      ∧ (retryReenqueue (taggedItem "A" 1 0) 7).priority
          = (taggedItem "A" 1 0).priority + 1
      ∧ (retryReenqueue (taggedItem "A" 1 0) 7).timestamp = 7) :=
  ⟨by decide, C6_amended_reenqueue_shape 0 (taggedItem "A" 1 0) 7 [] (by decide)⟩

lemma set_getElem?_self {α : Type _} :
    ∀ (l : List α) (i : Nat) (a : α), l[i]? = some a → l.set i a = l := by
  intro l
  induction l with
  | nil => intro i a h; simp at h
  | cons x xs ih =>
    intro i a h
    cases i with
    | zero =>
      simp only [List.getElem?_cons_zero, Option.some.injEq] at h
      simp [List.set, h]
    | succ i =>
      simp only [List.getElem?_cons_succ] at h
      simp [List.set, ih i a h]

/-- Claim C7: whenever `WorkerPool.process` claims an idle worker, the
claimed worker's busy flag is reset before the call returns on every exit
path — the worker list after the call equals the list before it, the
available-worker count is unchanged, and the pipeline's outcome (success
or thrown error) is what propagates to the caller. -/
theorem C7_worker_always_released :
    ∀ (ws : List Worker) (r : PipelineResult) (i : Nat),
      ws.findIdx? (fun w => !w.busy) = some i →
      (poolProcess ws r).1 = ws
      ∧ availableWorkers (poolProcess ws r).1 = availableWorkers ws
      ∧ (poolProcess ws r).2 = some r := by
  intro ws r i hfind
  have hp := List.findIdx?_of_eq_some hfind
  cases hw : ws[i]? with
  | none => rw [hw] at hp; simp at hp
  | some w =>
    rw [hw] at hp
    simp only [Bool.not_eq_eq_eq_not, Bool.not_true] at hp
    have hbusy : w.busy = false := by simpa using hp
    have hweta : { w with busy := false } = w := by
      cases w
      simp_all
    have hfinal : (ws.set i { w with busy := true }).set i { w with busy := false }
        = ws := by
      rw [List.set_set, hweta, set_getElem?_self ws i w hw]
    unfold poolProcess
    rw [hfind]
    dsimp only
    rw [hw]
    dsimp only
    rw [hfinal]
    exact ⟨rfl, rfl, rfl⟩

/-- Witness for C7: a two-worker pool with one busy slot, run on both a
succeeding and a failing pipeline. -/
theorem C7_witness :
    ([Worker.mk 0 true, Worker.mk 1 false].findIdx? (fun w => !w.busy) = some 1)
    ∧ ((poolProcess [Worker.mk 0 true, Worker.mk 1 false] (.err "boom")).1
        = [Worker.mk 0 true, Worker.mk 1 false]
      ∧ availableWorkers
          (poolProcess [Worker.mk 0 true, Worker.mk 1 false] (.err "boom")).1
        = availableWorkers [Worker.mk 0 true, Worker.mk 1 false]
      ∧ (poolProcess [Worker.mk 0 true, Worker.mk 1 false] (.err "boom")).2
        = some (.err "boom")) :=
  ⟨by decide,
    C7_worker_always_released [Worker.mk 0 true, Worker.mk 1 false]
      (.err "boom") 1 (by decide)⟩

/-! ## Webhook delivery shape. -/

lemma objGet_eq_none_of_not_keyed {p : List (String × Value)} {k : String}
    (h : ∀ kv ∈ p, kv.1 ≠ k) : objGet p k = none := by
  unfold objGet
  have hf : p.find? (fun kv => kv.1 = k) = none := by
    rw [List.find?_eq_none]
    intro a ha
    simpa using h a ha
  rw [hf]
  rfl

/-- A concrete webhook payload carrying a secret. -/
def webhookPayloadFull : List (String × Value) :=
  [("webhookUrl", .str "https://hooks.example/1"),
   ("secret", .str "s3cr3t"), ("customerID", .str "CUST0001")]

/-- A concrete webhook payload with no secret key. -/
def webhookPayloadNoSecret : List (String × Value) :=
  [("webhookUrl", .str "https://hooks.example/1"),
   ("customerID", .str "CUST0001")]

/-- Claim C8: a delivery to the `/webhook` path POSTs a body containing
neither the `secret` key nor the `webhookUrl` key, sends the request to
the payload's `webhookUrl` value, and puts the secret value only in the
`X-Webhook-Secret` header — the payload's secret when it is a truthy
value, and the empty string when the key is absent. -/
theorem C8_webhook_strips_secret_and_url :
    ∀ payload : List (String × Value),
      objGet (sendToEndpoint "/webhook" payload).body "secret" = none
      ∧ objGet (sendToEndpoint "/webhook" payload).body "webhookUrl" = none
      ∧ (sendToEndpoint "/webhook" payload).url = objGet payload "webhookUrl"
      ∧ (objGet payload "secret" = none →
          (sendToEndpoint "/webhook" payload).secretHeader = some (.str ""))
      ∧ (∀ v : Value, objGet payload "secret" = some v → v.falsy = false →
          (sendToEndpoint "/webhook" payload).secretHeader = some v) := by
  intro payload
  unfold sendToEndpoint
  rw [if_pos rfl]
  refine ⟨?_, ?_, rfl, ?_, ?_⟩
  · apply objGet_eq_none_of_not_keyed
    intro kv hkv
    unfold objDelete at hkv
    have := (List.mem_filter.mp hkv).2
    simpa using this
  · apply objGet_eq_none_of_not_keyed
    intro kv hkv
    unfold objDelete at hkv
    have h1 := (List.mem_filter.mp hkv).1
    have := (List.mem_filter.mp h1).2
    simpa using this
  · intro h
    rw [h]
  · intro v hv hfalsy
    rw [hv]
    dsimp only
    rw [hfalsy]
    rfl

/-- Witness for C8 on concrete payloads with and without a secret. -/
theorem C8_witness :
    objGet webhookPayloadNoSecret "secret" = none
    ∧ (sendToEndpoint "/webhook" webhookPayloadNoSecret).secretHeader
        = some (.str "")
    ∧ objGet webhookPayloadFull "secret" = some (.str "s3cr3t")
    ∧ (Value.str "s3cr3t").falsy = false
    ∧ (sendToEndpoint "/webhook" webhookPayloadFull).secretHeader
        = some (.str "s3cr3t") :=
  ⟨by decide,
   (C8_webhook_strips_secret_and_url webhookPayloadNoSecret).2.2.2.1 (by decide),
   by decide, by decide,
   (C8_webhook_strips_secret_and_url webhookPayloadFull).2.2.2.2
     (.str "s3cr3t") (by decide) (by decide)⟩

/-! ## Transform determinism and address parsing. -/

/-- A customer configuration with no endpoint-specific overrides. -/
def ccPlain : CustomerConfig where
  customerId := "CUST0001"
  endpointSpecificConfig := fun _ => none

/-- Counterexample to claim C9 as stated: the `CommunicationPreferencesAPI`
transform embeds `new Date().toISOString()` in `marketingOptIn.timestamp`,
so two runs of the Transform stage on the same submission and configs at
clock instants 0 and 1 yield different payload maps. -/
theorem C9_counterexample :
    transformDataForEndpoint fdTemplate communicationPreferencesConfig ccPlain 0
      ≠ transformDataForEndpoint fdTemplate communicationPreferencesConfig ccPlain 1 := by
  decide

/-- Claim C9 as amended: the Transform stage is a pure function of the
submission, the configurations, and the clock reading — it never mutates
the submission — and for an endpoint whose transformers do not read the
clock (here `CreditCheckSystem`) two runs at any two instants produce
equal payload maps; only `CommunicationPreferencesAPI`'s `marketingOptIn`
timestamp breaks clock-independence. -/
theorem C9_amended_deterministic_given_clock :
    ∀ (fd : FormData) (cc : CustomerConfig) (t t' : Nat),
      transformDataForEndpoint fd creditCheckSystemConfig cc t
        = transformDataForEndpoint fd creditCheckSystemConfig cc t' := by
  intro fd cc t t'
  rfl

/-- Claim C10: `parseAddress` succeeds exactly on inputs with at least
three comma-separated segments; on such inputs it returns the trimmed
first segment as street, the trimmed second as city, and the first two
space-separated entries of the trimmed third as state and zip (zip being
`undefined` when the third segment has no space); yet the field validator
for `currentAddress` accepts any non-blank string containing a comma, such
as `"a,b"`, on which `parseAddress` throws. -/
theorem C10_parseAddress_precondition_vs_validator :
    (∀ a : String, (parseAddress a).isSome ↔ 3 ≤ (jsSplit ',' a).length)
    ∧ (∀ (a p0 p1 p2 : String) (rest : List String),
        jsSplit ',' a = p0 :: p1 :: p2 :: rest →
        parseAddress a = some
          { street := jsTrim p0
            city := jsTrim p1
            state := (jsSplit ' ' (jsTrim p2)).headD ""
            zip := (jsSplit ' ' (jsTrim p2))[1]? })
    ∧ (currentAddressValid "a,b" = true ∧ parseAddress "a,b" = none) := by
  refine ⟨?_, ?_, by decide, by decide⟩
  · intro a
    unfold parseAddress
    dsimp only
    cases h2 : (jsSplit ',' a)[2]? with
    | none =>
      have hlen : (jsSplit ',' a).length ≤ 2 := List.getElem?_eq_none_iff.mp h2
      cases h1 : (jsSplit ',' a)[1]? with
      | none => simp [h1, h2]; omega
      | some p1 => simp [h1, h2]; omega
    | some p2 =>
      have hlen : 2 < (jsSplit ',' a).length := by
        rcases List.getElem?_eq_some_iff.mp h2 with ⟨h, _⟩
        exact h
      cases h1 : (jsSplit ',' a)[1]? with
      | none =>
        have hle : (jsSplit ',' a).length ≤ 1 := List.getElem?_eq_none_iff.mp h1
        exfalso
        omega
      | some p1 => simp [h1, h2]; omega
  · intro a p0 p1 p2 rest h
    unfold parseAddress
    rw [h]
    simp [List.getElem?_cons_succ, List.getElem?_cons_zero]

/-- Witness for C10 on a well-formed address accepted by the validator. -/
theorem C10_witness :
    jsSplit ',' "1 Main St, Springfield, IL 62704"
      = ["1 Main St", " Springfield", " IL 62704"]
    ∧ parseAddress "1 Main St, Springfield, IL 62704"
      = some { street := "1 Main St", city := "Springfield", state := "IL",
               zip := some "62704" } := by
  refine ⟨by decide, ?_⟩
  have h := C10_parseAddress_precondition_vs_validator.2.1
    "1 Main St, Springfield, IL 62704" "1 Main St" " Springfield"
    " IL 62704" [] (by decide)
  rw [h]
  decide

end FDI
